import Mathlib

/-!
Verification development for the fastapi-video-streamer-saas repository.

The Python source is shallowly embedded: each service/endpoint/task body is
translated into an executable Lean function over explicit state, and the
claims of the specification are settled as theorems about those functions.
Database commits are modelled by returning the list of committed snapshots
(a trace); Python floats are modelled as rationals; exceptions are modelled
as explicit error results.
-/

namespace VideoStreamer

/-! ## Python primitives used by the streaming endpoint -/

/-- Value of a list of decimal digit characters, `none` if empty or any
non-digit appears.  Mirrors the digit scan inside Python `int()`. -/
def digitsVal : List Char → Option Nat
  | [] => none
  | cs => cs.foldl
      (fun acc c =>
        match acc with
        | none => none
        | some n => if c.isDigit then some (n * 10 + (c.toNat - '0'.toNat)) else none)
      (some 0)

/-- Strip leading and trailing whitespace, as Python `int()` tolerates. -/
def pyTrim (s : String) : String :=
  ⟨((s.data.dropWhile Char.isWhitespace).reverse.dropWhile Char.isWhitespace).reverse⟩

/-- Python `int(s)`: optional surrounding whitespace, optional sign, decimal
digits; `none` models a raised `ValueError`. -/
def pyInt? (s : String) : Option Int :=
  match (pyTrim s).data with
  | [] => none
  | '+' :: rest => (digitsVal rest).map Int.ofNat
  | '-' :: rest => (digitsVal rest).map (fun n => -(n : Int))
  | cs => (digitsVal cs).map Int.ofNat

/-- Fuel-bounded worker for `pyReplace`; the fuel is the length of the
subject string plus one, which suffices for a non-empty pattern. -/
def pyReplaceAux (pat rep : List Char) : Nat → List Char → List Char
  | 0, s => s
  | _ + 1, [] => []
  | fuel + 1, c :: rest =>
      if pat ≠ [] ∧ pat.isPrefixOf (c :: rest) then
        rep ++ pyReplaceAux pat rep fuel ((c :: rest).drop pat.length)
      else
        c :: pyReplaceAux pat rep fuel rest

/-- Python `s.replace(pat, rep)` for a non-empty pattern: replaces every
non-overlapping occurrence, left to right. -/
def pyReplace (s pat rep : String) : String :=
  ⟨pyReplaceAux pat.data rep.data (s.data.length + 1) s.data⟩

/-- Fuel-bounded worker for `pySplit`; `acc` holds the current chunk in
reverse. -/
def pySplitAux (sep : List Char) : Nat → List Char → List Char → List (List Char)
  | 0, acc, s => [acc.reverse ++ s]
  | _ + 1, acc, [] => [acc.reverse]
  | fuel + 1, acc, c :: rest =>
      if sep ≠ [] ∧ sep.isPrefixOf (c :: rest) then
        acc.reverse :: pySplitAux sep fuel [] ((c :: rest).drop sep.length)
      else
        pySplitAux sep fuel (c :: acc) rest

/-- Python `s.split(sep)` for a non-empty separator; `"".split(sep) = [""]`. -/
def pySplit (s sep : String) : List String :=
  (pySplitAux sep.data (s.data.length + 1) [] s.data).map String.mk

/-- Clamp a Python slice index against a sequence of length `n`. -/
def pyClampIdx (n : Nat) (i : Int) : Nat :=
  if i < 0 then ((n : Int) + i).toNat else min i.toNat n

/-- Python slice `l[a:b]` with step 1. -/
def pySlice {α : Type} (l : List α) (a b : Int) : List α :=
  let lo := pyClampIdx l.length a
  let hi := pyClampIdx l.length b
  (l.drop lo).take (hi - lo)

/-! ## Streaming endpoint (`stream_video`, src/app/api/videos.py lines 189-242)

The endpoint body after the status/view bookkeeping: the video content is
fully loaded, then an optional `Range` header is handled.  A raised
exception anywhere in the `try` block is caught and turned into an HTTP 500
response, which `httpError 500` models. -/

/-- Outcome of the streaming endpoint: a response with status code, body
bytes, optional `Content-Range` header and `Content-Length` header, or an
`HTTPException` with the given status code. -/
inductive StreamResult where
  | ok (statusCode : Nat) (body : List Nat) (contentRange : Option String)
      (contentLength : String)
  | httpError (statusCode : Nat)
deriving DecidableEq, Repr

/-- Status code of a `StreamResult`. -/
def StreamResult.code : StreamResult → Nat
  | .ok c _ _ _ => c
  | .httpError c => c

/-- Body of a `StreamResult` (empty for an error response). -/
def StreamResult.bodyOf : StreamResult → List Nat
  | .ok _ b _ _ => b
  | .httpError _ => []

/-- The `Content-Range` header of a `StreamResult`, when present. -/
def StreamResult.rangeHeaderOf : StreamResult → Option String
  | .ok _ _ r _ => r
  | .httpError _ => none

/-- The range-handling core of the `stream_video` endpoint
(src/app/api/videos.py lines 194-236), given the loaded content and the
optional `Range` request header. -/
def stream_video (content : List Nat) (rangeHeader : Option String) : StreamResult :=
  match rangeHeader with
  | none => .ok 200 content none (toString content.length)
  | some h =>
      let parts := pySplit (pyReplace h "bytes=" "") "-"
      let p0 := parts.headD ""
      let startRes : Option Int := if p0 = "" then some 0 else pyInt? p0
      match startRes with
      | none => .httpError 500
      | some start =>
          match parts[1]? with
          | none => .httpError 500
          | some p1 =>
              let endRes : Option Int :=
                if p1 = "" then some ((content.length : Int) - 1) else pyInt? p1
              match endRes with
              | none => .httpError 500
              | some e =>
                  let sliced := pySlice content start (e + 1)
                  .ok 206 sliced
                    (some ("bytes " ++ toString start ++ "-" ++ toString e ++ "/"
                      ++ toString content.length))
                    (toString sliced.length)

/-! ## Data model (src/app/models/video.py)

Columns irrelevant to the verified claims (title, filenames, paths, tags,
quality lists, …) are omitted; every modelled field matches a column of the
corresponding table.  Floats are modelled as rationals, timestamps as
natural-number clocks supplied by the caller. -/

/-- The `VideoStatus` enum (src/app/models/video.py lines 27-35). -/
inductive VideoStatus where
  | pending
  | uploading
  | processing
  | completed
  | failed
  | deleted
deriving DecidableEq, Repr

/-- The `videos` table row, restricted to the columns the claims touch. -/
structure Video where
  status : VideoStatus
  processing_progress : Nat
  error_message : Option String
  duration : Option ℚ
  width : Option Nat
  height : Option Nat
  fps : Option ℚ
  bitrate : Option Nat
  codec : Option String
  thumbnail_path : Option String
  thumbnail_generated : Bool
  view_count : Nat
  uploaded_at : Option Nat
  processed_at : Option Nat
deriving DecidableEq, Repr

/-- The `video_upload_sessions` table row, restricted to the columns the
claims touch. -/
structure UploadSession where
  status : VideoStatus
  bytes_uploaded : Nat
  upload_progress : ℚ
  error_message : Option String
  started_at : Option Nat
  completed_at : Option Nat
deriving DecidableEq, Repr

/-- Embedding of `VideoUploadSession.is_active` (src/app/models/video.py lines 197-200). -/
def UploadSession.is_active (s : UploadSession) : Bool :=
  s.status = VideoStatus.pending ∨ s.status = VideoStatus.uploading

/-- The `video_view_sessions` table row, restricted to the columns the
claims touch.  `last_accessed` carries the clock value of the commit that
last wrote it (column default: creation time). -/
structure ViewSession where
  video_id : String
  session_id : String
  user_id : Option String
  ip_address : Option String
  user_agent : Option String
  current_time : ℚ
  completion_percentage : ℚ
  is_completed : Bool
  last_accessed : Nat
deriving DecidableEq, Repr

/-- A freshly constructed `VideoViewSession` with column defaults
(`current_time=0`, `completion_percentage=0`, `is_completed=False`,
`last_accessed=utcnow`). -/
def freshViewSession (vid sid : String) (uid ip ua : Option String) (now : Nat) :
    ViewSession :=
  { video_id := vid, session_id := sid, user_id := uid, ip_address := ip,
    user_agent := ua, current_time := 0, completion_percentage := 0,
    is_completed := false, last_accessed := now }

/-- Embedding of `VideoViewSession.update_progress` (src/app/models/video.py lines
275-284): store the playback position, recompute the percentage, refresh
`last_accessed`, and set `is_completed` once the percentage reaches 95. -/
def ViewSession.update_progress (s : ViewSession) (current_time video_duration : ℚ)
    (now : Nat) : ViewSession :=
  let pct : ℚ := if video_duration > 0 then current_time / video_duration * 100 else 0
  let s1 := { s with current_time := current_time, completion_percentage := pct,
                     last_accessed := now }
  if pct ≥ 95 then { s1 with is_completed := true } else s1

/-- Metadata returned by `extract_video_metadata` (src/celery_worker/tasks.py
lines 331-367): the dictionary fields copied onto the video row. -/
structure MediaMeta where
  duration : ℚ
  width : Nat
  height : Nat
  fps : ℚ
  bitrate : Option Nat
  codec : String
deriving DecidableEq, Repr

/-! ## Persistent store for view sessions and videos -/

/-- The relational store as seen by the progress/analytics services: videos
keyed by id plus the view-session table. -/
structure Store where
  videos : List (String × Video)
  viewSessions : List ViewSession
deriving DecidableEq, Repr

/-- Key match used by both service queries on `video_view_sessions`. -/
def sessionKeyMatch (vid sid : String) (s : ViewSession) : Bool :=
  s.video_id = vid ∧ s.session_id = sid

/-- The `select(VideoViewSession).where(video_id == …, session_id == …)`
query both services issue. -/
def findSession (st : Store) (vid sid : String) : Option ViewSession :=
  st.viewSessions.find? (sessionKeyMatch vid sid)

/-- Embedding of `db.get(Video, video_id)` / `select(Video).where(Video.id == …)`. -/
def lookupVideo (st : Store) (vid : String) : Option Video :=
  (st.videos.find? (fun p => p.1 = vid)).map Prod.snd

/-- View counter of a stored video, when the video exists. -/
def viewCountOf (st : Store) (vid : String) : Option Nat :=
  (lookupVideo st vid).map Video.view_count

/-- Commit an updated view session: overwrite the row found by the key
query, or insert the new row when the query found nothing. -/
def putSession (l : List ViewSession) (vid sid : String) (s1 : ViewSession) :
    List ViewSession :=
  if (l.find? (sessionKeyMatch vid sid)).isSome then
    l.map (fun s => if sessionKeyMatch vid sid s then s1 else s)
  else
    l ++ [s1]

/-- Increment the view counter of the video with the given id, if present. -/
def bumpViewCount (videos : List (String × Video)) (vid : String) :
    List (String × Video) :=
  videos.map (fun p =>
    if p.1 = vid then (p.1, { p.2 with view_count := p.2.view_count + 1 }) else p)

/-- Embedding of `VideoAnalyticsService.record_video_view` (src/app/services/video_service.py
lines 468-505): create the view session only when the key query finds
nothing, and in that case increment the video's view counter (when the
video row exists). -/
def record_video_view (st : Store) (vid sid : String) (uid ip ua : Option String)
    (now : Nat) : ViewSession × Store :=
  match findSession st vid sid with
  | some s => (s, st)
  | none =>
      let s := freshViewSession vid sid uid ip ua now
      (s, { videos := bumpViewCount st.videos vid,
            viewSessions := st.viewSessions ++ [s] })

/-- Python truthiness of the `duration` column (`if video.duration:`):
`None` and `0.0` are falsy. -/
def durationTruthy : Option ℚ → Bool
  | none => false
  | some d => d ≠ 0

/-- Embedding of `VideoService.update_video_progress` (src/app/services/video_service.py
lines 233-270): 404 when the video is unknown; otherwise find or create the
view session, run `update_progress` only when `video.duration` is truthy,
and commit. -/
def update_video_progress (st : Store) (vid sid : String) (t : ℚ)
    (uid : Option String) (now : Nat) : Except Nat (ViewSession × Store) :=
  match lookupVideo st vid with
  | none => .error 404
  | some video =>
      let s0 := match findSession st vid sid with
        | some s => s
        | none => freshViewSession vid sid uid none none now
      let s1 := match video.duration with
        | some d => if d ≠ 0 then s0.update_progress t d now else s0
        | none => s0
      .ok (s1, { st with viewSessions := putSession st.viewSessions vid sid s1 })

/-! ## Ingestion and processing operations

Each operation returns the list of committed `Video` snapshots, in commit
order, so that intermediate persisted states are visible.  Boolean flags
stand for the success or failure of external I/O (object-store calls,
OpenCV), and `err` for the text of a raised exception. -/

/-- Last committed snapshot of a trace, or the initial row when the
operation committed nothing. -/
def lastVideo (v : Video) (trace : List Video) : Video := trace.getLastD v

/-- Embedding of `VideoService._process_video_metadata` (src/app/services/video_service.py
lines 409-459): download, extract metadata, optionally generate a thumbnail
(`generate_video_thumbnail` commits the thumbnail columns on its own, lines
319-322), then commit status Completed with `processing_progress=100`.  Any
exception is caught inside and commits status Failed.  `fetchMeta` is
`none` when the download or the OpenCV extraction raises. -/
def service_process_metadata (v : Video) (fetchMeta : Option MediaMeta)
    (thumbEnabled : Bool) (thumbRes : Option String) (now : Nat) (err : String) :
    List Video :=
  match fetchMeta with
  | none => [{ v with status := .failed,
                      error_message := some ("Processing failed: " ++ err) }]
  | some m =>
      let v1 := { v with duration := some m.duration, width := some m.width,
                         height := some m.height, fps := some m.fps }
      match thumbEnabled, thumbRes with
      | true, some p =>
          let v2 := { v1 with thumbnail_path := some p, thumbnail_generated := true }
          [v2, { v2 with status := .completed, processed_at := some now,
                         processing_progress := 100 }]
      | _, _ =>
          [{ v1 with status := .completed, processed_at := some now,
                     processing_progress := 100 }]

/-- Result of `VideoService.upload_video_file`: the returned session or the
raised `HTTPException` status code, the committed video snapshots, the
session table right after the session-creation commit, and the final
session table. -/
structure UploadResult where
  outcome : Except Nat UploadSession
  videoTrace : List Video
  sessionsAfterCreate : List UploadSession
  sessionsFinal : List UploadSession
deriving Repr

/-- Embedding of `VideoService.upload_video_file` (src/app/services/video_service.py
lines 108-171): unconditionally create and commit a new session in status
Uploading, set the video to Uploading, write the payload to the object
store, then mark the session Completed, the video Processing, and run
`_process_video_metadata`.  On a storage failure, mark both the session and
the video Failed and raise an HTTP 500.  The function consults no existing
session and can raise no conflict error. -/
def upload_video_file (v : Video) (sessions : List UploadSession) (fileLen : Nat)
    (storeOk : Bool) (fetchMeta : Option MediaMeta) (thumbEnabled : Bool)
    (thumbRes : Option String) (now : Nat) (err : String) : UploadResult :=
  let s0 : UploadSession :=
    { status := .uploading, bytes_uploaded := 0, upload_progress := 0,
      error_message := none, started_at := some now, completed_at := none }
  let afterCreate := sessions ++ [s0]
  let vU := { v with status := VideoStatus.uploading }
  if storeOk then
    let s1 := { s0 with bytes_uploaded := fileLen, status := .completed,
                        upload_progress := 100, completed_at := some now }
    let vP := { vU with status := VideoStatus.processing, uploaded_at := some now }
    let procTrace := service_process_metadata vP fetchMeta thumbEnabled thumbRes now err
    { outcome := .ok s1, videoTrace := [vU, vP] ++ procTrace,
      sessionsAfterCreate := afterCreate, sessionsFinal := sessions ++ [s1] }
  else
    let s1 := { s0 with bytes_uploaded := fileLen, status := .failed,
                        error_message := some err }
    { outcome := .error 500,
      videoTrace := [vU, { vU with status := .failed, error_message := some err }],
      sessionsAfterCreate := afterCreate, sessionsFinal := sessions ++ [s1] }

/-- Celery task `process_video_upload` (src/celery_worker/tasks.py lines
59-172): commit status Processing with `processing_progress=10`, download
the blob, extract metadata and commit `processing_progress=50`, optionally
generate a thumbnail and commit `processing_progress=80`, then commit
status Completed with `processing_progress=100`.  An exception before the
metadata commit reaches the handler that commits status Failed.
`fetchMeta` is `none` when the download or the extraction raises;
`thumbRes` is the value `generate_video_thumbnail_sync` returns (it
swallows its own errors and returns `None` instead of raising). -/
def process_video_upload (v : Video) (fetchMeta : Option MediaMeta)
    (thumbEnabled : Bool) (thumbRes : Option String) (now : Nat) (err : String) :
    List Video :=
  let v1 := { v with status := VideoStatus.processing, processing_progress := 10 }
  match fetchMeta with
  | none => [v1, { v1 with status := .failed, error_message := some err }]
  | some m =>
      let v2 := { v1 with duration := some m.duration, width := some m.width,
                          height := some m.height, fps := some m.fps,
                          bitrate := m.bitrate, codec := some m.codec,
                          processing_progress := 50 }
      if thumbEnabled then
        let v3 :=
          match thumbRes with
          | some p => { v2 with thumbnail_path := some p, thumbnail_generated := true,
                                processing_progress := 80 }
          | none => { v2 with processing_progress := 80 }
        [v1, v2, v3, { v3 with status := .completed, processed_at := some now,
                               processing_progress := 100 }]
      else
        [v1, v2, { v2 with status := .completed, processed_at := some now,
                           processing_progress := 100 }]

/-- Celery task `generate_video_thumbnail_task` (src/celery_worker/tasks.py
lines 175-229): on success commit only the thumbnail columns; every failure
path (download error, `generate_video_thumbnail_sync` returning `None`)
raises without committing any video change. -/
def generate_video_thumbnail_task (v : Video) (fetchOk : Bool)
    (thumbRes : Option String) : List Video :=
  if fetchOk then
    match thumbRes with
    | some p => [{ v with thumbnail_path := some p, thumbnail_generated := true }]
    | none => []
  else []

/-- Embedding of `VideoProcessingWorker.process_video_metadata` (src/app/workers/
video_worker.py lines 34-106): commit status Processing with
`processing_progress=20`, then on successful extraction commit the
metadata columns with `processing_progress=60`; any exception commits
status Failed. -/
def worker_process_video_metadata (v : Video) (fetchMeta : Option MediaMeta)
    (err : String) : List Video :=
  let v1 := { v with status := VideoStatus.processing, processing_progress := 20 }
  match fetchMeta with
  | none => [v1, { v1 with status := .failed, error_message := some err }]
  | some m =>
      [v1, { v1 with duration := some m.duration, width := some m.width,
                     height := some m.height, fps := some m.fps,
                     bitrate := m.bitrate, codec := some m.codec,
                     processing_progress := 60 }]

/-- Embedding of `VideoService.delete_video` (src/app/services/video_service.py lines
173-200): delete the blob and thumbnail, then commit status Deleted; a
storage failure raises before any status commit. -/
def delete_video (v : Video) (storageOk : Bool) : List Video :=
  if storageOk then [{ v with status := VideoStatus.deleted }] else []

/-! ## System-level status evolution

`upload_video` (the endpoint) creates a fresh Pending video, runs
`upload_video_file`, and enqueues `process_video_upload`; afterwards the
delete endpoint, the queued (possibly duplicated) processing task and the
thumbnail task may run in any order.  A run is a sequence of such events;
its video trace is the concatenation of the committed snapshots. -/

/-- A fresh `Video` row as `create_video` commits it (status Pending,
column defaults everywhere else). -/
def newVideo : Video :=
  { status := .pending, processing_progress := 0, error_message := none,
    duration := none, width := none, height := none, fps := none,
    bitrate := none, codec := none, thumbnail_path := none,
    thumbnail_generated := false, view_count := 0, uploaded_at := none,
    processed_at := none }

/-- Events that can touch a video after its upload call. -/
inductive PostUploadEv where
  | task (fetchMeta : Option MediaMeta) (thumbEnabled : Bool)
      (thumbRes : Option String) (now : Nat) (err : String)
  | del (storageOk : Bool)
  | thumb (fetchOk : Bool) (thumbRes : Option String)

/-- Committed snapshots of one post-upload event. -/
def runEv (v : Video) : PostUploadEv → List Video
  | .task m te tr now err => process_video_upload v m te tr now err
  | .del ok => delete_video v ok
  | .thumb ok tr => generate_video_thumbnail_task v ok tr

/-- Committed snapshots of a sequence of post-upload events, each starting
from the last committed state. -/
def runEvents (v : Video) : List PostUploadEv → List Video
  | [] => []
  | e :: es =>
      let tr := runEv v e
      tr ++ runEvents (lastVideo v tr) es

/-- All committed snapshots of a full run: creation, the upload call, then
the post-upload events. -/
def systemTrace (fileLen : Nat) (storeOk : Bool) (fetchMeta : Option MediaMeta)
    (thumbEnabled : Bool) (thumbRes : Option String) (now : Nat) (err : String)
    (events : List PostUploadEv) : List Video :=
  let up := upload_video_file newVideo [] fileLen storeOk fetchMeta thumbEnabled
    thumbRes now err
  newVideo :: (up.videoTrace ++ runEvents (lastVideo newVideo up.videoTrace) events)

/-- The transition relation the specification claims:
Pending→Uploading→Processing→{Completed,Failed}, plus Deleted from any
non-Deleted state. -/
def specAllowed (a b : VideoStatus) : Bool :=
  (a = .pending ∧ b = .uploading) ∨ (a = .uploading ∧ b = .processing) ∨
    (a = .processing ∧ (b = .completed ∨ b = .failed)) ∨
    (¬a = .deleted ∧ b = .deleted)

/-- The transition relation the code actually follows: the claimed one
extended by Uploading→Failed (upload failure) and re-entry into Processing
from Completed, Failed or Deleted (a queued processing task always starts
by writing status Processing). -/
def codeAllowed (a b : VideoStatus) : Bool :=
  specAllowed a b ∨ (a = .uploading ∧ b = .failed) ∨
    ((a = .completed ∨ a = .failed ∨ a = .deleted) ∧ b = .processing)

/-- One trace step is fine when the status is unchanged or the change is a
`codeAllowed` transition. -/
def stepOk (a b : VideoStatus) : Bool := a = b ∨ codeAllowed a b

/-- Every consecutive pair along the status list, starting from `s`, is a
`stepOk` step. -/
def okFrom (s : VideoStatus) : List VideoStatus → Bool
  | [] => true
  | b :: rest => stepOk s b && okFrom b rest

/-- The whole committed trace only performs `stepOk` status steps. -/
def statusChainOk : List Video → Bool
  | [] => true
  | v :: rest => okFrom v.status (rest.map Video.status)

/-- Statuses a video can rest in between post-upload events: every event
sequence after the upload call leaves the video Completed, Failed or
Deleted. -/
def okStart (s : VideoStatus) : Bool :=
  s = VideoStatus.completed ∨ s = VideoStatus.failed ∨ s = VideoStatus.deleted

/-- Number of active upload sessions in a session table. -/
def countActive (l : List UploadSession) : Nat :=
  l.countP (fun s => s.is_active)

/-! ## Sequences of UpdateProgress calls -/

/-- Arguments of one `update_video_progress` call. -/
structure ProgressCall where
  video_id : String
  session_id : String
  t : ℚ
  uid : Option String
  now : Nat

/-- Apply one progress call to the store; a 404 leaves the store
unchanged. -/
def applyCall (st : Store) (c : ProgressCall) : Store :=
  match update_video_progress st c.video_id c.session_id c.t c.uid c.now with
  | .ok (_, st1) => st1
  | .error _ => st

/-- Apply a sequence of progress calls in order. -/
def applyCalls (st : Store) (calls : List ProgressCall) : Store :=
  calls.foldl applyCall st

/-! ## Concrete fixtures used by counterexamples and witnesses -/

/-- A fully processed video (status Completed, known duration). -/
def demoCompletedVideo : Video :=
  { newVideo with status := .completed, processing_progress := 100,
                  duration := some 100, processed_at := some 5 }

/-- A completed video whose duration was never extracted. -/
def demoNoDurationVideo : Video :=
  { newVideo with status := .completed, processing_progress := 100 }

/-- An existing view session for `("v1", "s1")` part-way through playback. -/
def demoExistingView : ViewSession :=
  { video_id := "v1", session_id := "s1", user_id := none, ip_address := none,
    user_agent := none, current_time := 42, completion_percentage := 42,
    is_completed := false, last_accessed := 2 }

/-- A view session for `("v1", "s1")` that has crossed the 95% threshold. -/
def demoDoneView : ViewSession :=
  { video_id := "v1", session_id := "s1", user_id := none, ip_address := none,
    user_agent := none, current_time := 98, completion_percentage := 98,
    is_completed := true, last_accessed := 2 }

/-- Store with one duration-less video and one existing session. -/
def demoStoreNoDur : Store :=
  { videos := [("v1", demoNoDurationVideo)], viewSessions := [demoExistingView] }

/-- Store with one completed video and no sessions yet. -/
def demoStoreEmpty : Store :=
  { videos := [("v1", demoCompletedVideo)], viewSessions := [] }

/-- Store with one completed video and one completed session. -/
def demoStoreDone : Store :=
  { videos := [("v1", demoCompletedVideo)], viewSessions := [demoDoneView] }

/-- An upload session sitting in the active status Uploading. -/
def demoActiveSession : UploadSession :=
  { status := .uploading, bytes_uploaded := 0, upload_progress := 0,
    error_message := none, started_at := some 1, completed_at := none }

/-- Metadata as the inspector would return it for a small clip. -/
def demoMeta : MediaMeta :=
  { duration := 100, width := 640, height := 360, fps := 30,
    bitrate := none, codec := "unknown" }

/-- The session row `upload_video_file` returns on the success path for a
100-byte payload started at clock 3. -/
def demoOkSession : UploadSession :=
  { status := .completed, bytes_uploaded := 100, upload_progress := 100,
    error_message := none, started_at := some 3, completed_at := some 3 }

/-! ## Helper lemmas -/

lemma pyClampIdx_natCast (n a : Nat) : pyClampIdx n (a : Int) = min a n := by
  unfold pyClampIdx
  rw [if_neg (by omega)]
  simp

lemma pySlice_length_nat {α : Type} (l : List α) (a b : Nat) (ha : a ≤ l.length)
    (hb : b ≤ l.length) : (pySlice l (a : Int) (b : Int)).length = b - a := by
  simp only [pySlice, pyClampIdx_natCast, Nat.min_eq_left ha, Nat.min_eq_left hb,
    List.length_take, List.length_drop]
  omega

/-! ## C1: range handling of the streaming endpoint -/

/-- C1 (amended): for a well-formed `bytes=start-end` header the endpoint
returns 206 with `Content-Range: bytes {start}-{end}/{totalLength}` built
from the *unclamped* parsed end, and the body is the Python slice
`content[start:end+1]`, whose length is exactly `end-start+1` whenever the
requested range is in bounds; no clamping of `end` takes place. -/
theorem stream_range_semantics (content : List Nat) (h : String) (p0 p1 : String)
    (s e : Nat)
    (h0 : (pySplit (pyReplace h "bytes=" "") "-").headD "" = p0)
    (h1 : (pySplit (pyReplace h "bytes=" "") "-")[1]? = some p1)
    (hp0 : ¬p0 = "") (hp1 : ¬p1 = "")
    (hs : pyInt? p0 = some ((s : Nat) : Int))
    (he : pyInt? p1 = some ((e : Nat) : Int))
    (hse : s ≤ e) (hlen : e < content.length) :
    stream_video content (some h) =
      .ok 206 (pySlice content ((s : Nat) : Int) (((e : Nat) : Int) + 1))
        (some ("bytes " ++ toString ((s : Nat) : Int) ++ "-"
          ++ toString ((e : Nat) : Int) ++ "/" ++ toString content.length))
        (toString (e - s + 1)) ∧
    (pySlice content ((s : Nat) : Int) (((e : Nat) : Int) + 1)).length = e - s + 1 := by
  have hcast : ((e : Nat) : Int) + 1 = ((e + 1 : Nat) : Int) := by push_cast; ring
  have hlen1 : (pySlice content ((s : Nat) : Int) (((e : Nat) : Int) + 1)).length
      = e - s + 1 := by
    rw [hcast, pySlice_length_nat content s (e + 1) (by omega) (by omega)]
    omega
  refine ⟨?_, hlen1⟩
  unfold stream_video
  simp only [h0, h1, if_neg hp0, if_neg hp1, hs, he]
  rw [hlen1]

/-- C1 counterexample: for a 10-byte object and `Range: bytes=5-100` the
code reports `Content-Range: bytes 5-100/10` (the claimed clamped header
would be `bytes 5-9/10`) and the body has 5 bytes, not
`end - start + 1 = 96`. -/
theorem stream_range_clamp_counterexample :
    (stream_video (List.replicate 10 0) (some "bytes=5-100")).rangeHeaderOf
      = some "bytes 5-100/10" ∧
    ¬(some "bytes 5-100/10" = some "bytes 5-9/10") ∧
    (stream_video (List.replicate 10 0) (some "bytes=5-100")).bodyOf.length = 5 ∧
    ¬(5 = 100 - 5 + 1) := by
  refine ⟨rfl, by decide, rfl, by decide⟩

/-- Witness for C1 at the spec's own example: a 1000-byte object with
`Range: bytes=100-199`. -/
theorem stream_range_semantics_witness :
    stream_video (List.replicate 1000 0) (some "bytes=100-199") =
      .ok 206 (pySlice (List.replicate 1000 0) ((100 : Nat) : Int) (((199 : Nat) : Int) + 1))
        (some ("bytes " ++ toString ((100 : Nat) : Int) ++ "-"
          ++ toString ((199 : Nat) : Int) ++ "/" ++ toString (List.replicate 1000 (0 : Nat)).length))
        (toString (199 - 100 + 1)) ∧
    (pySlice (List.replicate 1000 0) ((100 : Nat) : Int) (((199 : Nat) : Int) + 1)).length
      = 199 - 100 + 1 :=
  stream_range_semantics (List.replicate 1000 0) "bytes=100-199" "100" "199" 100 199
    rfl rfl (by decide) (by decide) rfl rfl (by omega)
    (by rw [List.length_replicate]; omega)

/-! ## C8: malformed Range headers -/

/-- C8 (amended): a malformed `Range` header is not treated as absent; the
`int()` `ValueError` or the missing-part `IndexError` raised while parsing
is caught by the endpoint's blanket handler and the request fails with
HTTP 500. -/
theorem malformed_range_http500 (content : List Nat) (h : String)
    (hmal :
      ((pySplit (pyReplace h "bytes=" "") "-").headD "" ≠ "" ∧
        pyInt? ((pySplit (pyReplace h "bytes=" "") "-").headD "") = none) ∨
      (pySplit (pyReplace h "bytes=" "") "-")[1]? = none ∨
      (∃ p1, (pySplit (pyReplace h "bytes=" "") "-")[1]? = some p1 ∧
        p1 ≠ "" ∧ pyInt? p1 = none)) :
    stream_video content (some h) = .httpError 500 := by
  unfold stream_video
  rcases hmal with ⟨hne, hnone⟩ | hidx | ⟨p1, hidx, hne1, hnone1⟩
  · simp only [if_neg hne, hnone]
  · by_cases hp0 : (pySplit (pyReplace h "bytes=" "") "-").headD "" = ""
    · simp only [if_pos hp0, hidx]
    · cases hsv : pyInt? ((pySplit (pyReplace h "bytes=" "") "-").headD "") with
      | none => simp only [if_neg hp0, hsv]
      | some a => simp only [if_neg hp0, hsv, hidx]
  · by_cases hp0 : (pySplit (pyReplace h "bytes=" "") "-").headD "" = ""
    · simp only [if_pos hp0, hidx, if_neg hne1, hnone1]
    · cases hsv : pyInt? ((pySplit (pyReplace h "bytes=" "") "-").headD "") with
      | none => simp only [if_neg hp0, hsv]
      | some a => simp only [if_neg hp0, hsv, hidx, if_neg hne1, hnone1]

/-- C8 counterexample: `Range: bytes=abc-def` yields HTTP 500, while the
absent-header behaviour is a 200 with the full body — they differ. -/
theorem malformed_range_counterexample :
    stream_video (List.replicate 10 0) (some "bytes=abc-def") = .httpError 500 ∧
    stream_video (List.replicate 10 0) none = .ok 200 (List.replicate 10 0) none "10" ∧
    ¬((StreamResult.httpError 500) = .ok 200 (List.replicate 10 0) none "10") :=
  ⟨rfl, rfl, by decide⟩

/-- Witness for C8 at `Range: bytes=abc-def` on a 10-byte object. -/
theorem malformed_range_http500_witness :
    stream_video (List.replicate 10 0) (some "bytes=abc-def") = .httpError 500 :=
  malformed_range_http500 (List.replicate 10 0) "bytes=abc-def"
    (Or.inl ⟨by decide, rfl⟩)

/-! ## C2: no conflict check in BeginUpload -/

/-- C2 (amended): `upload_video_file` consults no existing session and has
no `ConflictError` path.  Even when an active `UploadSession` already
exists for the video, the call unconditionally creates and commits another
session — so right after that commit at least two active sessions coexist —
and its outcome depends only on the storage write: the session on success,
an HTTP 500 on failure, never a conflict rejection. -/
theorem begin_upload_no_conflict_check (v : Video) (sessions : List UploadSession)
    (fileLen : Nat) (storeOk : Bool) (fetchMeta : Option MediaMeta)
    (thumbEnabled : Bool) (thumbRes : Option String) (now : Nat) (err : String)
    (hactive : ∃ s ∈ sessions, s.is_active = true) :
    countActive (upload_video_file v sessions fileLen storeOk fetchMeta thumbEnabled
        thumbRes now err).sessionsAfterCreate = countActive sessions + 1 ∧
    2 ≤ countActive (upload_video_file v sessions fileLen storeOk fetchMeta thumbEnabled
        thumbRes now err).sessionsAfterCreate ∧
    (storeOk = true → (upload_video_file v sessions fileLen storeOk fetchMeta
        thumbEnabled thumbRes now err).outcome =
      .ok { status := .completed, bytes_uploaded := fileLen, upload_progress := 100,
            error_message := none, started_at := some now, completed_at := some now }) ∧
    (storeOk = false → (upload_video_file v sessions fileLen storeOk fetchMeta
        thumbEnabled thumbRes now err).outcome = .error 500) := by
  have hpos : 0 < countActive sessions := by
    rcases hactive with ⟨s, hmem, hact⟩
    exact List.countP_pos_iff.mpr ⟨s, hmem, hact⟩
  have hcnt : ∀ r : UploadResult, r.sessionsAfterCreate = sessions ++
      [{ status := .uploading, bytes_uploaded := 0, upload_progress := 0,
         error_message := none, started_at := some now, completed_at := none }] →
      countActive r.sessionsAfterCreate = countActive sessions + 1 := by
    intro r hr
    rw [hr]
    simp [countActive, List.countP_append, UploadSession.is_active]
  cases storeOk with
  | true =>
      refine ⟨hcnt _ rfl, ?_, fun _ => rfl, fun hf => absurd hf (by decide)⟩
      rw [hcnt _ rfl]; omega
  | false =>
      refine ⟨hcnt _ rfl, ?_, fun ht => absurd ht (by decide), fun _ => rfl⟩
      rw [hcnt _ rfl]; omega

/-- C2 counterexample: with an active session already present, a further
`upload_video_file` call still succeeds (it returns the completed session,
raising nothing), and right after the session-creation commit two active
sessions exist — the claimed `ConflictError` rejection does not happen. -/
theorem begin_upload_conflict_counterexample :
    (upload_video_file newVideo [demoActiveSession] 100 true (some demoMeta) true
        (some "thumbnails/v/thumbnail_v.jpg") 3 "boom").outcome = .ok demoOkSession ∧
    countActive (upload_video_file newVideo [demoActiveSession] 100 true (some demoMeta)
        true (some "thumbnails/v/thumbnail_v.jpg") 3 "boom").sessionsAfterCreate = 2 :=
  ⟨rfl, by decide⟩

/-- Witness for C2 on a concrete store with one active session. -/
theorem begin_upload_no_conflict_check_witness :
    countActive (upload_video_file newVideo [demoActiveSession] 100 true (some demoMeta)
        true (some "thumbnails/v/thumbnail_v.jpg") 3 "boom").sessionsAfterCreate
      = countActive [demoActiveSession] + 1 ∧
    2 ≤ countActive (upload_video_file newVideo [demoActiveSession] 100 true
        (some demoMeta) true (some "thumbnails/v/thumbnail_v.jpg") 3 "boom").sessionsAfterCreate ∧
    (true = true → (upload_video_file newVideo [demoActiveSession] 100 true (some demoMeta)
        true (some "thumbnails/v/thumbnail_v.jpg") 3 "boom").outcome =
      .ok { status := .completed, bytes_uploaded := 100, upload_progress := 100,
            error_message := none, started_at := some 3, completed_at := some 3 }) ∧
    (true = false → (upload_video_file newVideo [demoActiveSession] 100 true (some demoMeta)
        true (some "thumbnails/v/thumbnail_v.jpg") 3 "boom").outcome = .error 500) :=
  begin_upload_no_conflict_check newVideo [demoActiveSession] 100 true (some demoMeta)
    true (some "thumbnails/v/thumbnail_v.jpg") 3 "boom"
    ⟨demoActiveSession, by simp, by decide⟩

/-! ## C5: completion percentage is not clamped -/

/-- C5 (amended): when the duration is positive, `update_progress` stores
`completion_percentage = current_time / duration * 100` with no clamping,
so the stored value can exceed 100 and can be negative. -/
theorem update_progress_unclamped (s : ViewSession) (t d : ℚ) (now : Nat)
    (hd : 0 < d) : (s.update_progress t d now).completion_percentage = t / d * 100 := by
  unfold ViewSession.update_progress
  simp only [if_pos hd]
  split <;> rfl

/-- C5 counterexample: playing position 200 on a 100-second video stores
`completion_percentage = 200`, while the claimed clamp formula yields 100. -/
theorem update_progress_clamp_counterexample :
    ((freshViewSession "v1" "s1" none none none 0).update_progress 200 100 7).completion_percentage
      = 200 ∧
    min (max ((200 : ℚ) / 100 * 100) 0) 100 = 100 ∧
    ¬((200 : ℚ) = 100) := by
  refine ⟨?_, by norm_num, by norm_num⟩
  norm_num [ViewSession.update_progress, freshViewSession]

/-- Witness for C5 at duration 100 and position 200. -/
theorem update_progress_unclamped_witness :
    (0 : ℚ) < 100 ∧
    ((freshViewSession "v1" "s1" none none none 0).update_progress 200 100 7).completion_percentage
      = 200 / 100 * 100 :=
  ⟨by norm_num,
    update_progress_unclamped (freshViewSession "v1" "s1" none none none 0) 200 100 7
      (by norm_num)⟩

/-! ## C10: UpdateProgress with unknown duration -/

/-- C10 (confirmed): when the video exists but its duration is unset or
zero, `update_video_progress` still finds or creates the view session and
commits it, but never calls `update_progress`: an existing session is
returned and stored unchanged, and a freshly created one keeps the column
defaults (`current_time=0`, `completion_percentage=0`,
`is_completed=False`, `last_accessed=` creation time). -/
theorem progress_unknown_duration_frame (st : Store) (vid sid : String) (t : ℚ)
    (uid : Option String) (now : Nat) (video : Video)
    (hv : lookupVideo st vid = some video)
    (hd : durationTruthy video.duration = false) :
    (∀ s, findSession st vid sid = some s →
      update_video_progress st vid sid t uid now =
        .ok (s, { st with viewSessions := putSession st.viewSessions vid sid s })) ∧
    (findSession st vid sid = none →
      update_video_progress st vid sid t uid now =
        .ok (freshViewSession vid sid uid none none now,
          { st with viewSessions := putSession st.viewSessions vid sid
                                      (freshViewSession vid sid uid none none now) }) ∧
      (freshViewSession vid sid uid none none now).current_time = 0 ∧
      (freshViewSession vid sid uid none none now).completion_percentage = 0 ∧
      (freshViewSession vid sid uid none none now).is_completed = false ∧
      (freshViewSession vid sid uid none none now).last_accessed = now) := by
  have hskip : ∀ s0 : ViewSession,
      (match video.duration with
        | some d => if d ≠ 0 then s0.update_progress t d now else s0
        | none => s0) = s0 := by
    intro s0
    cases hdur : video.duration with
    | none => rfl
    | some d =>
        rw [hdur] at hd
        simp only [durationTruthy, decide_eq_false_iff_not, not_not] at hd
        simp [hd]
  constructor
  · intro s hfind
    unfold update_video_progress
    rw [hv, hfind]
    simp only [hskip]
  · intro hfind
    refine ⟨?_, rfl, rfl, rfl, rfl⟩
    unfold update_video_progress
    rw [hv, hfind]
    simp only [hskip]

/-- Witness for C10: an existing session with `current_time = 42` is
returned and stored unchanged when the video's duration is unknown. -/
theorem progress_unknown_duration_frame_witness :
    durationTruthy demoNoDurationVideo.duration = false ∧
    update_video_progress demoStoreNoDur "v1" "s1" 99 none 9 =
      .ok (demoExistingView,
        { demoStoreNoDur with
            viewSessions := putSession demoStoreNoDur.viewSessions "v1" "s1"
                              demoExistingView }) :=
  ⟨rfl,
    (progress_unknown_duration_frame demoStoreNoDur "v1" "s1" 99 none 9
      demoNoDurationVideo rfl rfl).1 demoExistingView rfl⟩

/-! ## C4: view counting is idempotent per (video, session) pair -/

lemma record_view_absent (st : Store) (vid sid : String) (u i a : Option String)
    (n : Nat) (h : findSession st vid sid = none) :
    record_video_view st vid sid u i a n =
      (freshViewSession vid sid u i a n,
        { videos := bumpViewCount st.videos vid,
          viewSessions := st.viewSessions ++ [freshViewSession vid sid u i a n] }) := by
  unfold record_video_view
  rw [h]

lemma record_view_existing (st : Store) (vid sid : String) (u i a : Option String)
    (n : Nat) (s : ViewSession) (h : findSession st vid sid = some s) :
    record_video_view st vid sid u i a n = (s, st) := by
  unfold record_video_view
  rw [h]

lemma find?_bump (l : List (String × Video)) (vid : String) :
    (bumpViewCount l vid).find? (fun p => p.1 = vid) =
      (l.find? (fun p => p.1 = vid)).map
        (fun p => (p.1, { p.2 with view_count := p.2.view_count + 1 })) := by
  induction l with
  | nil => rfl
  | cons a tl ih =>
      by_cases hk : a.1 = vid
      · simp only [bumpViewCount, List.map_cons, if_pos hk]
        rw [List.find?_cons_of_pos _ (by simpa using hk),
          List.find?_cons_of_pos _ (by simpa using hk)]
        rfl
      · simp only [bumpViewCount, List.map_cons, if_neg hk]
        rw [List.find?_cons_of_neg _ (by simpa using hk),
          List.find?_cons_of_neg _ (by simpa using hk)]
        simpa [bumpViewCount] using ih

/-- C4 (confirmed): `record_video_view` creates the `(videoId, sessionId)`
session only when absent and increments the video's counter exactly once,
at creation; repeated calls with the same pair return the stored session
and leave the whole store — in particular the counter — unchanged, so
three calls increment the counter by exactly 1. -/
theorem record_view_increments_once (st : Store) (vid sid : String) (v : Video)
    (u1 i1 a1 u2 i2 a2 u3 i3 a3 : Option String) (n1 n2 n3 : Nat)
    (hnew : findSession st vid sid = none)
    (hvid : lookupVideo st vid = some v) :
    viewCountOf (record_video_view st vid sid u1 i1 a1 n1).2 vid
      = some (v.view_count + 1) ∧
    (record_video_view (record_video_view st vid sid u1 i1 a1 n1).2
        vid sid u2 i2 a2 n2).2 = (record_video_view st vid sid u1 i1 a1 n1).2 ∧
    (record_video_view (record_video_view (record_video_view st vid sid u1 i1 a1 n1).2
        vid sid u2 i2 a2 n2).2 vid sid u3 i3 a3 n3).2
      = (record_video_view st vid sid u1 i1 a1 n1).2 ∧
    viewCountOf (record_video_view (record_video_view
        (record_video_view st vid sid u1 i1 a1 n1).2 vid sid u2 i2 a2 n2).2
        vid sid u3 i3 a3 n3).2 vid = some (v.view_count + 1) := by
  have hst1 := record_view_absent st vid sid u1 i1 a1 n1 hnew
  have hcount1 : viewCountOf (record_video_view st vid sid u1 i1 a1 n1).2 vid
      = some (v.view_count + 1) := by
    rw [hst1]
    unfold viewCountOf lookupVideo
    dsimp only
    rw [find?_bump]
    unfold lookupVideo at hvid
    rcases Option.map_eq_some'.mp hvid with ⟨pr, hfv, hsnd⟩
    rw [hfv]
    simp [hsnd]
  have hfind1 : findSession (record_video_view st vid sid u1 i1 a1 n1).2 vid sid
      = some (freshViewSession vid sid u1 i1 a1 n1) := by
    rw [hst1]
    unfold findSession
    dsimp only
    rw [List.find?_append]
    unfold findSession at hnew
    rw [hnew]
    simp [sessionKeyMatch, freshViewSession]
  have hst2 := record_view_existing (record_video_view st vid sid u1 i1 a1 n1).2
    vid sid u2 i2 a2 n2 (freshViewSession vid sid u1 i1 a1 n1) hfind1
  have heq2 : (record_video_view (record_video_view st vid sid u1 i1 a1 n1).2
      vid sid u2 i2 a2 n2).2 = (record_video_view st vid sid u1 i1 a1 n1).2 := by
    rw [hst2]
  have hfind2 : findSession (record_video_view (record_video_view st vid sid
      u1 i1 a1 n1).2 vid sid u2 i2 a2 n2).2 vid sid
      = some (freshViewSession vid sid u1 i1 a1 n1) := by
    rw [heq2]
    exact hfind1
  have hst3 := record_view_existing _ vid sid u3 i3 a3 n3
    (freshViewSession vid sid u1 i1 a1 n1) hfind2
  have heq3 : (record_video_view (record_video_view (record_video_view st vid sid
      u1 i1 a1 n1).2 vid sid u2 i2 a2 n2).2 vid sid u3 i3 a3 n3).2
      = (record_video_view st vid sid u1 i1 a1 n1).2 := by
    rw [hst3]
    exact heq2
  refine ⟨hcount1, heq2, heq3, ?_⟩
  rw [heq3]
  exact hcount1

/-- Witness for C4: three `record_video_view` calls on a fresh pair bump
the counter of the stored video from 0 to exactly 1. -/
theorem record_view_increments_once_witness :
    viewCountOf (record_video_view demoStoreEmpty "v1" "s1" none none none 1).2 "v1"
      = some (demoCompletedVideo.view_count + 1) ∧
    (record_video_view (record_video_view demoStoreEmpty "v1" "s1" none none none 1).2
        "v1" "s1" none none none 2).2
      = (record_video_view demoStoreEmpty "v1" "s1" none none none 1).2 ∧
    (record_video_view (record_video_view (record_video_view demoStoreEmpty "v1" "s1"
        none none none 1).2 "v1" "s1" none none none 2).2 "v1" "s1" none none none 3).2
      = (record_video_view demoStoreEmpty "v1" "s1" none none none 1).2 ∧
    viewCountOf (record_video_view (record_video_view
        (record_video_view demoStoreEmpty "v1" "s1" none none none 1).2
        "v1" "s1" none none none 2).2 "v1" "s1" none none none 3).2 "v1"
      = some (demoCompletedVideo.view_count + 1) :=
  record_view_increments_once demoStoreEmpty "v1" "s1" demoCompletedVideo
    none none none none none none none none none 1 2 3 rfl rfl

/-! ## C6: is_completed is irreversible -/

lemma update_progress_keeps_completed (s : ViewSession) (t d : ℚ) (now : Nat)
    (h : s.is_completed = true) : (s.update_progress t d now).is_completed = true := by
  unfold ViewSession.update_progress
  dsimp only
  split <;> split <;> first | rfl | exact h

lemma update_progress_video_id (s : ViewSession) (t d : ℚ) (now : Nat) :
    (s.update_progress t d now).video_id = s.video_id := by
  unfold ViewSession.update_progress
  dsimp only
  split <;> split <;> rfl

lemma update_progress_session_id (s : ViewSession) (t d : ℚ) (now : Nat) :
    (s.update_progress t d now).session_id = s.session_id := by
  unfold ViewSession.update_progress
  dsimp only
  split <;> split <;> rfl

lemma sessionKeyMatch_iff (vid sid : String) (s : ViewSession) :
    sessionKeyMatch vid sid s = true ↔ s.video_id = vid ∧ s.session_id = sid := by
  simp [sessionKeyMatch]

lemma find?_map_replace {α : Type} (p : α → Bool) (s1 : α) (l : List α)
    (h1 : p s1 = true) :
    (l.map (fun x => if p x then s1 else x)).find? p
      = (l.find? p).map (fun _ => s1) := by
  induction l with
  | nil => rfl
  | cons a tl ih =>
      by_cases pa : p a = true
      · rw [List.map_cons, if_pos pa, List.find?_cons_of_pos _ h1,
          List.find?_cons_of_pos _ pa]
        rfl
      · rw [List.map_cons, if_neg pa, List.find?_cons_of_neg _ pa,
          List.find?_cons_of_neg _ pa]
        exact ih

lemma find?_map_cond {α : Type} (p q : α → Bool) (s1 : α) (l : List α)
    (hps1 : p s1 = false) (hpq : ∀ x, q x = true → p x = false) :
    (l.map (fun x => if q x then s1 else x)).find? p = l.find? p := by
  induction l with
  | nil => rfl
  | cons a tl ih =>
      by_cases qa : q a = true
      · rw [List.map_cons, if_pos qa,
          List.find?_cons_of_neg _ (by simp [hps1]),
          List.find?_cons_of_neg _ (by simp [hpq a qa])]
        exact ih
      · rw [List.map_cons, if_neg qa]
        by_cases pa : p a = true
        · rw [List.find?_cons_of_pos _ pa, List.find?_cons_of_pos _ pa]
        · rw [List.find?_cons_of_neg _ pa, List.find?_cons_of_neg _ pa]
          exact ih

lemma find?_putSession_self (l : List ViewSession) (vid sid : String)
    (s1 : ViewSession) (h1 : sessionKeyMatch vid sid s1 = true) :
    (putSession l vid sid s1).find? (sessionKeyMatch vid sid) = some s1 := by
  unfold putSession
  split
  case isTrue h =>
      rw [find?_map_replace _ _ _ h1]
      obtain ⟨a, ha⟩ := Option.isSome_iff_exists.mp h
      rw [ha]
      rfl
  case isFalse h =>
      rw [List.find?_append, Option.not_isSome_iff_eq_none.mp h,
        List.find?_cons_of_pos _ h1]
      rfl

lemma find?_putSession_other (l : List ViewSession) (cv cs vid sid : String)
    (s1 : ViewSession) (hs1 : sessionKeyMatch cv cs s1 = true)
    (hdiff : ¬(cv = vid ∧ cs = sid)) :
    (putSession l cv cs s1).find? (sessionKeyMatch vid sid)
      = l.find? (sessionKeyMatch vid sid) := by
  have hnot : ∀ x : ViewSession, sessionKeyMatch cv cs x = true →
      sessionKeyMatch vid sid x = false := by
    intro x hx
    obtain ⟨h1, h2⟩ := (sessionKeyMatch_iff cv cs x).mp hx
    rw [← Bool.not_eq_true]
    intro hy
    obtain ⟨h3, h4⟩ := (sessionKeyMatch_iff vid sid x).mp hy
    exact hdiff ⟨h1.symm.trans h3, h2.symm.trans h4⟩
  unfold putSession
  split
  case isTrue h => exact find?_map_cond _ _ _ _ (hnot s1 hs1) hnot
  case isFalse h =>
      rw [List.find?_append, List.find?_cons_of_neg _ (by simp [hnot s1 hs1])]
      cases l.find? (sessionKeyMatch vid sid) <;> rfl

lemma applyCall_keeps_completed (st : Store) (c : ProgressCall) (vid sid : String)
    (h : ∃ s, findSession st vid sid = some s ∧ s.is_completed = true) :
    ∃ s1, findSession (applyCall st c) vid sid = some s1 ∧ s1.is_completed = true := by
  obtain ⟨s, hf, hc⟩ := h
  unfold applyCall update_video_progress
  cases hv : lookupVideo st c.video_id with
  | none => exact ⟨s, hf, hc⟩
  | some video =>
      dsimp only
      by_cases hk : c.video_id = vid ∧ c.session_id = sid
      · obtain ⟨h1, h2⟩ := hk
        subst h1
        subst h2
        rw [hf]
        dsimp only
        have hkey : sessionKeyMatch c.video_id c.session_id s = true :=
          List.find?_some hf
        cases hdur : video.duration with
        | none =>
            exact ⟨s, by
              unfold findSession
              exact find?_putSession_self _ _ _ _ hkey, hc⟩
        | some d =>
            dsimp only
            by_cases hd0 : d ≠ 0
            · rw [if_pos hd0]
              refine ⟨s.update_progress c.t d c.now, ?_, ?_⟩
              · unfold findSession
                dsimp only
                refine find?_putSession_self _ _ _ _ ?_
                rw [sessionKeyMatch_iff, update_progress_video_id,
                  update_progress_session_id]
                exact (sessionKeyMatch_iff _ _ s).mp hkey
              · exact update_progress_keeps_completed s c.t d c.now hc
            · rw [if_neg hd0]
              exact ⟨s, by
                unfold findSession
                exact find?_putSession_self _ _ _ _ hkey, hc⟩
      · cases hfc : findSession st c.video_id c.session_id with
        | some s0 =>
            dsimp only
            have hkey0 : sessionKeyMatch c.video_id c.session_id s0 = true :=
              List.find?_some hfc
            have hkey1 : ∀ s1 : ViewSession,
                s1.video_id = s0.video_id → s1.session_id = s0.session_id →
                sessionKeyMatch c.video_id c.session_id s1 = true := by
              intro s1 e1 e2
              rw [sessionKeyMatch_iff, e1, e2]
              exact (sessionKeyMatch_iff _ _ s0).mp hkey0
            refine ⟨s, ?_, hc⟩
            unfold findSession
            dsimp only
            cases hdur : video.duration with
            | none => rw [find?_putSession_other _ _ _ _ _ _ hkey0 hk]; exact hf
            | some d =>
                dsimp only
                by_cases hd0 : d ≠ 0
                · rw [if_pos hd0]
                  rw [find?_putSession_other _ _ _ _ _ _
                    (hkey1 _ (update_progress_video_id _ _ _ _)
                      (update_progress_session_id _ _ _ _)) hk]
                  exact hf
                · rw [if_neg hd0]
                  rw [find?_putSession_other _ _ _ _ _ _ hkey0 hk]
                  exact hf
        | none =>
            dsimp only
            have hkeyf : sessionKeyMatch c.video_id c.session_id
                (freshViewSession c.video_id c.session_id c.uid none none c.now)
                = true := by
              rw [sessionKeyMatch_iff]
              exact ⟨rfl, rfl⟩
            have hkey1 : ∀ s1 : ViewSession,
                s1.video_id = c.video_id → s1.session_id = c.session_id →
                sessionKeyMatch c.video_id c.session_id s1 = true := by
              intro s1 e1 e2
              rw [sessionKeyMatch_iff, e1, e2]
              exact ⟨rfl, rfl⟩
            refine ⟨s, ?_, hc⟩
            unfold findSession
            dsimp only
            cases hdur : video.duration with
            | none => rw [find?_putSession_other _ _ _ _ _ _ hkeyf hk]; exact hf
            | some d =>
                dsimp only
                by_cases hd0 : d ≠ 0
                · rw [if_pos hd0]
                  rw [find?_putSession_other _ _ _ _ _ _
                    (hkey1 _ ((update_progress_video_id _ _ _ _).trans rfl)
                      ((update_progress_session_id _ _ _ _).trans rfl)) hk]
                  exact hf
                · rw [if_neg hd0]
                  rw [find?_putSession_other _ _ _ _ _ _ hkeyf hk]
                  exact hf

/-- C6 (confirmed): once a view session's `is_completed` flag is true, no
subsequent sequence of `update_video_progress` calls — whatever their
positions, including rewinds — ever turns it back to false: the stored
session for that key keeps `is_completed = true`. -/
theorem completion_irreversible (st : Store) (vid sid : String) (s : ViewSession)
    (calls : List ProgressCall)
    (hfound : findSession st vid sid = some s)
    (hdone : s.is_completed = true) :
    (findSession (applyCalls st calls) vid sid).map ViewSession.is_completed
      = some true := by
  have main : ∀ (cs : List ProgressCall) (st0 : Store),
      (∃ s0, findSession st0 vid sid = some s0 ∧ s0.is_completed = true) →
      ∃ s1, findSession (applyCalls st0 cs) vid sid = some s1 ∧
        s1.is_completed = true := by
    intro cs
    induction cs with
    | nil => intro st0 h; exact h
    | cons c tl ih =>
        intro st0 h
        exact ih (applyCall st0 c) (applyCall_keeps_completed st0 c vid sid h)
  obtain ⟨s1, h1, h2⟩ := main calls st ⟨s, hfound, hdone⟩
  rw [h1]
  simp [h2]

/-- Witness for C6: a completed session stays completed after a rewind to
position 10 on a 100-second video. -/
theorem completion_irreversible_witness :
    (findSession (applyCalls demoStoreDone
        [{ video_id := "v1", session_id := "s1", t := 10, uid := none, now := 9 }])
      "v1" "s1").map ViewSession.is_completed = some true :=
  completion_irreversible demoStoreDone "v1" "s1" demoDoneView
    [{ video_id := "v1", session_id := "s1", t := 10, uid := none, now := 9 }]
    rfl rfl

/-! ## C7: progress value committed after the metadata step -/

/-- C7 (amended): the queued pipeline job `process_video_upload` commits
`processing_progress = 50` immediately after the metadata-extraction step;
the value 60 appears only in `VideoProcessingWorker.process_video_metadata`,
a worker variant the pipeline never invokes, whose post-metadata commit is
60. -/
theorem metadata_progress_amended (v : Video) (m : MediaMeta) (te : Bool)
    (tr : Option String) (now : Nat) (err : String) :
    ((process_video_upload v (some m) te tr now err).map
        Video.processing_progress)[1]? = some 50 ∧
    ((worker_process_video_metadata v (some m) err).map
        Video.processing_progress)[1]? = some 60 := by
  constructor
  · cases te <;> cases tr <;> rfl
  · rfl

/-- C7 counterexample: a concrete run of the queued processing job commits
50, not 60, right after the metadata step. -/
theorem metadata_progress_counterexample :
    ((process_video_upload newVideo (some demoMeta) true
        (some "thumbnails/v/thumbnail_v.jpg") 7 "e").map
        Video.processing_progress)[1]? = some 50 ∧
    ¬((50 : Nat) = 60) :=
  ⟨rfl, by decide⟩

/-! ## C9: standalone thumbnail regeneration only touches thumbnail columns -/

/-- C9 (confirmed): `generate_video_thumbnail_task` never changes `status`,
`processing_progress` or any other metadata column; on success it writes
only `thumbnail_path` and `thumbnail_generated`, and on any failure it
commits nothing. -/
theorem thumbnail_task_frame_effect (v : Video) (fetchOk : Bool)
    (tr : Option String) :
    (lastVideo v (generate_video_thumbnail_task v fetchOk tr)).status = v.status ∧
    (lastVideo v (generate_video_thumbnail_task v fetchOk tr)).processing_progress
      = v.processing_progress ∧
    (lastVideo v (generate_video_thumbnail_task v fetchOk tr)).duration = v.duration ∧
    (lastVideo v (generate_video_thumbnail_task v fetchOk tr)).width = v.width ∧
    (lastVideo v (generate_video_thumbnail_task v fetchOk tr)).height = v.height ∧
    (lastVideo v (generate_video_thumbnail_task v fetchOk tr)).fps = v.fps ∧
    (lastVideo v (generate_video_thumbnail_task v fetchOk tr)).error_message
      = v.error_message ∧
    (lastVideo v (generate_video_thumbnail_task v fetchOk tr)).view_count
      = v.view_count ∧
    (lastVideo v (generate_video_thumbnail_task v fetchOk tr)).processed_at
      = v.processed_at ∧
    (fetchOk = true → ∀ p, tr = some p →
      lastVideo v (generate_video_thumbnail_task v fetchOk tr)
        = { v with thumbnail_path := some p, thumbnail_generated := true }) ∧
    (fetchOk = false → lastVideo v (generate_video_thumbnail_task v fetchOk tr) = v) ∧
    (tr = none → lastVideo v (generate_video_thumbnail_task v fetchOk tr) = v) := by
  cases fetchOk with
  | false =>
      cases tr with
      | none =>
          exact ⟨rfl, rfl, rfl, rfl, rfl, rfl, rfl, rfl, rfl,
            fun hx => absurd hx (by decide), fun _ => rfl, fun _ => rfl⟩
      | some p0 =>
          exact ⟨rfl, rfl, rfl, rfl, rfl, rfl, rfl, rfl, rfl,
            fun hx => absurd hx (by decide), fun _ => rfl,
            fun hx => Option.noConfusion hx⟩
  | true =>
      cases tr with
      | none =>
          exact ⟨rfl, rfl, rfl, rfl, rfl, rfl, rfl, rfl, rfl,
            fun _ p hp => Option.noConfusion hp,
            fun hx => absurd hx (by decide), fun _ => rfl⟩
      | some p0 =>
          refine ⟨rfl, rfl, rfl, rfl, rfl, rfl, rfl, rfl, rfl, ?_,
            fun hx => absurd hx (by decide), fun hx => Option.noConfusion hx⟩
          intro _ p hp
          rw [Option.some.injEq] at hp
          subst hp
          rfl

/-- Witness for C9 on a completed video with a successful regeneration. -/
theorem thumbnail_task_frame_effect_witness :
    (lastVideo demoCompletedVideo
        (generate_video_thumbnail_task demoCompletedVideo true
          (some "thumbnails/v1/thumbnail_v1.jpg"))).status
      = demoCompletedVideo.status ∧
    (lastVideo demoCompletedVideo
        (generate_video_thumbnail_task demoCompletedVideo true
          (some "thumbnails/v1/thumbnail_v1.jpg"))).processing_progress
      = demoCompletedVideo.processing_progress ∧
    lastVideo demoCompletedVideo
        (generate_video_thumbnail_task demoCompletedVideo true
          (some "thumbnails/v1/thumbnail_v1.jpg"))
      = { demoCompletedVideo with
            thumbnail_path := some "thumbnails/v1/thumbnail_v1.jpg",
            thumbnail_generated := true } := by
  have h := thumbnail_task_frame_effect demoCompletedVideo true
    (some "thumbnails/v1/thumbnail_v1.jpg")
  exact ⟨h.1, h.2.1, h.2.2.2.2.2.2.2.2.2.1 rfl "thumbnails/v1/thumbnail_v1.jpg" rfl⟩

/-! ## C3: the status machine actually implemented -/

lemma getLastD_map_status (d : Video) (tr : List Video) :
    (tr.map Video.status).getLastD d.status = (tr.getLastD d).status := by
  induction tr generalizing d with
  | nil => rfl
  | cons a tl ih =>
      rw [List.map_cons, List.getLastD_cons, List.getLastD_cons]
      exact ih a

lemma okFrom_append (s : VideoStatus) (l1 l2 : List VideoStatus) :
    okFrom s (l1 ++ l2) = (okFrom s l1 && okFrom (l1.getLastD s) l2) := by
  induction l1 generalizing s with
  | nil => simp [okFrom]
  | cons b tl ih =>
      have heq : ∀ (x c : VideoStatus) (L : List VideoStatus),
          okFrom x (c :: L) = (stepOk x c && okFrom c L) := fun _ _ _ => rfl
      rw [List.cons_append, heq, heq, ih b, List.getLastD_cons, Bool.and_assoc]

lemma stepOk_refl (a : VideoStatus) : stepOk a a = true := by
  simp [stepOk]

lemma runEv_chain (v : Video) (e : PostUploadEv) (h : okStart v.status = true) :
    okFrom v.status ((runEv v e).map Video.status) = true ∧
    okStart ((runEv v e).getLastD v).status = true := by
  have hs : v.status = .completed ∨ v.status = .failed ∨ v.status = .deleted := by
    simpa [okStart] using h
  cases e with
  | task m te tr now err =>
      cases m with
      | none =>
          refine ⟨?_, by rw [show ((runEv v (.task none te tr now err)).getLastD v).status
            = VideoStatus.failed from rfl]; decide⟩
          rw [show (runEv v (.task none te tr now err)).map Video.status
            = [.processing, .failed] from rfl]
          rcases hs with h1 | h1 | h1 <;> rw [h1] <;> decide
      | some mm =>
          cases te with
          | true =>
              cases tr with
              | none =>
                  refine ⟨?_, by rw [show ((runEv v (.task (some mm) true none now err)).getLastD v).status
                    = VideoStatus.completed from rfl]; decide⟩
                  rw [show (runEv v (.task (some mm) true none now err)).map Video.status
                    = [.processing, .processing, .processing, .completed] from rfl]
                  rcases hs with h1 | h1 | h1 <;> rw [h1] <;> decide
              | some p =>
                  refine ⟨?_, by rw [show ((runEv v (.task (some mm) true (some p) now err)).getLastD v).status
                    = VideoStatus.completed from rfl]; decide⟩
                  rw [show (runEv v (.task (some mm) true (some p) now err)).map Video.status
                    = [.processing, .processing, .processing, .completed] from rfl]
                  rcases hs with h1 | h1 | h1 <;> rw [h1] <;> decide
          | false =>
              refine ⟨?_, by rw [show ((runEv v (.task (some mm) false tr now err)).getLastD v).status
                = VideoStatus.completed from rfl]; decide⟩
              rw [show (runEv v (.task (some mm) false tr now err)).map Video.status
                = [.processing, .processing, .completed] from rfl]
              rcases hs with h1 | h1 | h1 <;> rw [h1] <;> decide
  | del ok =>
      cases ok with
      | true =>
          refine ⟨?_, by rw [show ((runEv v (.del true)).getLastD v).status
            = VideoStatus.deleted from rfl]; decide⟩
          rw [show (runEv v (.del true)).map Video.status = [.deleted] from rfl]
          rcases hs with h1 | h1 | h1 <;> rw [h1] <;> decide
      | false => exact ⟨rfl, h⟩
  | thumb ok tr =>
      cases ok with
      | false => exact ⟨rfl, h⟩
      | true =>
          cases tr with
          | none => exact ⟨rfl, h⟩
          | some p =>
              refine ⟨?_, ?_⟩
              · rw [show (runEv v (.thumb true (some p))).map Video.status
                  = [v.status] from rfl]
                simp [okFrom, stepOk_refl]
              · rw [show ((runEv v (.thumb true (some p))).getLastD v).status
                  = v.status from rfl]
                exact h

lemma runEvents_chain (es : List PostUploadEv) : ∀ (v : Video),
    okStart v.status = true →
    okFrom v.status ((runEvents v es).map Video.status) = true := by
  induction es with
  | nil => intro v _; rfl
  | cons e tl ih =>
      intro v h
      obtain ⟨h1, h2⟩ := runEv_chain v e h
      unfold runEvents
      rw [List.map_append, okFrom_append, getLastD_map_status, h1, Bool.true_and]
      exact ih _ h2

lemma upload_chain (fileLen : Nat) (storeOk : Bool) (m : Option MediaMeta)
    (te : Bool) (tr : Option String) (now : Nat) (err : String) :
    okFrom VideoStatus.pending
      (((upload_video_file newVideo [] fileLen storeOk m te tr now err).videoTrace).map
        Video.status) = true ∧
    okStart (((upload_video_file newVideo [] fileLen storeOk m te tr now
      err).videoTrace).getLastD newVideo).status = true := by
  cases storeOk with
  | false =>
      constructor
      · rw [show ((upload_video_file newVideo [] fileLen false m te tr now
          err).videoTrace).map Video.status = [.uploading, .failed] from rfl]
        decide
      · rw [show (((upload_video_file newVideo [] fileLen false m te tr now
          err).videoTrace).getLastD newVideo).status = VideoStatus.failed from rfl]
        decide
  | true =>
      cases m with
      | none =>
          constructor
          · rw [show ((upload_video_file newVideo [] fileLen true none te tr now
              err).videoTrace).map Video.status
              = [.uploading, .processing, .failed] from rfl]
            decide
          · rw [show (((upload_video_file newVideo [] fileLen true none te tr now
              err).videoTrace).getLastD newVideo).status = VideoStatus.failed from rfl]
            decide
      | some mm =>
          cases te with
          | true =>
              cases tr with
              | none =>
                  constructor
                  · rw [show ((upload_video_file newVideo [] fileLen true (some mm) true
                      none now err).videoTrace).map Video.status
                      = [.uploading, .processing, .completed] from rfl]
                    decide
                  · rw [show (((upload_video_file newVideo [] fileLen true (some mm) true
                      none now err).videoTrace).getLastD newVideo).status
                      = VideoStatus.completed from rfl]
                    decide
              | some p =>
                  constructor
                  · rw [show ((upload_video_file newVideo [] fileLen true (some mm) true
                      (some p) now err).videoTrace).map Video.status
                      = [.uploading, .processing, .processing, .completed] from rfl]
                    decide
                  · rw [show (((upload_video_file newVideo [] fileLen true (some mm) true
                      (some p) now err).videoTrace).getLastD newVideo).status
                      = VideoStatus.completed from rfl]
                    decide
          | false =>
              constructor
              · rw [show ((upload_video_file newVideo [] fileLen true (some mm) false
                  tr now err).videoTrace).map Video.status
                  = [.uploading, .processing, .completed] from rfl]
                decide
              · rw [show (((upload_video_file newVideo [] fileLen true (some mm) false
                  tr now err).videoTrace).getLastD newVideo).status
                  = VideoStatus.completed from rfl]
                decide

/-- C3 (amended): every committed status is one of the six enum values, and
every status change in any run (create, upload, then any sequence of queued
processing tasks, deletes and thumbnail tasks) lies in `codeAllowed`: the
claimed chain Pending→Uploading→Processing→{Completed,Failed} with Deleted
from any state, extended by Uploading→Failed on upload failure and by
re-entry {Completed,Failed,Deleted}→Processing when a queued processing
task (re)runs — so Completed and Failed are not terminal under the code. -/
theorem status_transitions_amended (fileLen : Nat) (storeOk : Bool)
    (m : Option MediaMeta) (te : Bool) (tr : Option String) (now : Nat)
    (err : String) (events : List PostUploadEv) :
    statusChainOk (systemTrace fileLen storeOk m te tr now err events) = true ∧
    ∀ w ∈ systemTrace fileLen storeOk m te tr now err events,
      w.status = .pending ∨ w.status = .uploading ∨ w.status = .processing ∨
      w.status = .completed ∨ w.status = .failed ∨ w.status = .deleted := by
  constructor
  · have h := upload_chain fileLen storeOk m te tr now err
    show okFrom newVideo.status _ = true
    rw [List.map_append, okFrom_append, getLastD_map_status,
      show newVideo.status = VideoStatus.pending from rfl, h.1, Bool.true_and]
    exact runEvents_chain events _ h.2
  · intro w _
    cases hs : w.status <;> decide

/-- C3 counterexample: a queued processing task run on an already Completed
video commits a Completed→Processing status change, which the claimed
transition relation forbids. -/
theorem status_transitions_counterexample :
    demoCompletedVideo.status = VideoStatus.completed ∧
    ((process_video_upload demoCompletedVideo (some demoMeta) true
        (some "thumbnails/v1/thumbnail_v1.jpg") 7 "e").map Video.status).headD .pending
      = VideoStatus.processing ∧
    specAllowed VideoStatus.completed VideoStatus.processing = false :=
  ⟨rfl, rfl, by decide⟩

end VideoStreamer
